import Mathlib

/-!
# Drop-table statement builder (`query_table_drop.go`)

A shallow embedding of `DropTableQuery`: its fields, the modifier methods
`IfExists` and `Restrict`, the renderer `AppendQuery` and the executor `Exec`
with its two lifecycle hooks.

The builder is a pointer receiver in Go, so every operation is written in
state-passing style: it returns the builder as it stands after the call next to
the Go return values.  Collaborators that live outside `query_table_drop.go`
(`baseQuery.appendTables`, `cascadeQuery.appendCascade`, `baseQuery.exec`, the
byte-slice pool and the method sets of the model types) are gathered in `Env`
and every theorem is stated for an arbitrary `Env`.
-/

namespace Bun

/-- A Go byte slice (`[]byte`), by content. -/
abbrev Bytes := List UInt8

/-- A Go `error` value that is not nil; `Option Error` is the Go `error` interface. -/
abbrev Error := String

/-- The bytes of a Go string literal.  Every literal appended by
`query_table_drop.go` is ASCII, one byte per character. -/
def lit (s : String) : Bytes :=
  s.toList.map (fun c => UInt8.ofNat c.toNat)

/-- A `sql.Result` interface value: nil, or a driver result (summarised by the
number of rows affected). -/
inductive SqlResult where
  | nil
  | rows (affected : Nat)
  deriving DecidableEq, Repr

/-- The `schema.Formatter` handed to the renderers; it is only passed on. -/
structure Formatter where
  dialect : String
  deriving DecidableEq, Repr

/-- The `*bun.DB` of a builder; `Exec` reads its formatter (`q.db.fmter`). -/
structure DB where
  fmter : Formatter
  deriving DecidableEq, Repr

/-- A `schema.Table`.  `query_table_drop.go` only reads `ZeroIface`, and only to
ask which hook interfaces its dynamic type implements, so `ZeroIface` is the
identity of that Go type. -/
structure Table where
  ZeroIface : Nat
  deriving DecidableEq, Repr

/-- A `schema.QueryWithArgs` entry of the table list. -/
structure QueryWithArgs where
  Query : String
  Args : List String
  deriving DecidableEq, Repr

/-- The fields of `DropTableQuery`: those of the embedded `baseQuery` that the
file touches (`db`, `dbi`, `err`, `table`, `tables`), `restrict` of the embedded
`cascadeQuery`, and its own `ifExists`. -/
structure DropTableQuery where
  db : DB
  dbi : Nat
  err : Option Error
  table : Option Table
  tables : List QueryWithArgs
  restrict : Bool
  ifExists : Bool
  deriving DecidableEq, Repr

/-- A lifecycle hook method `(ctx, q *DropTableQuery) error`: it receives the
builder by pointer, so it yields the builder as it leaves it and its error. -/
abbrev HookFn := DropTableQuery → DropTableQuery × Option Error

/-- The collaborators of `query_table_drop.go` that are defined elsewhere.

* `appendTables`, `appendCascade`: the two rendering helpers called by
  `AppendQuery`; they read the builder and return the buffer (and an error).
* `byteSlice`: the buffer `bs.b` obtained from `getByteSlice()`.
* `exec`: `baseQuery.exec`, the call that reaches the connection.
* `BeforeDropTable`, `AfterDropTable`: the type assertions
  `q.table.ZeroIface.(BeforeDropTableHook)` and `.(AfterDropTableHook)`:
  `some hook` when the dynamic type implements the interface. -/
structure Env where
  appendTables : Formatter → DropTableQuery → Bytes → Bytes × Option Error
  appendCascade : Formatter → DropTableQuery → Bytes → Bytes
  byteSlice : Bytes
  exec : DropTableQuery → Bytes → SqlResult × Option Error
  BeforeDropTable : Nat → Option HookFn
  AfterDropTable : Nat → Option HookFn

/-- `func (q *DropTableQuery) IfExists()`. -/
def IfExists (q : DropTableQuery) : DropTableQuery :=
  { q with ifExists := true }

/-- `func (q *DropTableQuery) Restrict()`. -/
def Restrict (q : DropTableQuery) : DropTableQuery :=
  { q with restrict := true }

/-- What `AppendQuery` leaves behind: the builder after the call and the two Go
return values, where `b = none` is the nil slice. -/
structure Rendered where
  q : DropTableQuery
  b : Option Bytes
  err : Option Error

/-- `func (q *DropTableQuery) AppendQuery(fmter, b) ([]byte, error)`. -/
def AppendQuery (env : Env) (fmter : Formatter) (q : DropTableQuery) (b : Bytes) :
    Rendered :=
  match q.err with
  | some e => ⟨q, none, some e⟩
  | none =>
    let b := b ++ lit "DROP TABLE "
    let b := if q.ifExists then b ++ lit "IF EXISTS " else b
    match env.appendTables fmter q b with
    | (_, some e) => ⟨q, none, some e⟩
    | (b, none) =>
      let b := env.appendCascade fmter q b
      ⟨q, some b, none⟩

/-- Modelled from the spec: `cascadeQuery.appendCascade` is not part of
`query_table_drop.go`.  The spec gives the grammar
`DROP TABLE [IF EXISTS] <target-list> [CASCADE]` with an optional cascade
clause: the clause is ` CASCADE` when cascade is in effect (`restrict` is
false) and is absent otherwise. -/
def appendCascadeSpec (_fmter : Formatter) (q : DropTableQuery) (b : Bytes) : Bytes :=
  if q.restrict then b else b ++ lit " CASCADE"

/-- What `Exec` does that can be observed from outside, in order. -/
inductive Event where
  | beforeHook (q : DropTableQuery)
  | render (q : DropTableQuery) (b : Bytes)
  | exec (q : DropTableQuery) (query : Bytes)
  | afterHook (q : DropTableQuery)
  deriving DecidableEq, Repr

/-- The outcome of one hook helper: builder after it, its error, what it did. -/
structure Hooked where
  q : DropTableQuery
  err : Option Error
  trace : List Event

/-- `func (q *DropTableQuery) beforeDropTableHook(ctx) error`, called with
`q.table` equal to the table `t` (not nil). -/
def beforeDropTableHook (env : Env) (q : DropTableQuery) (t : Table) : Hooked :=
  match env.BeforeDropTable t.ZeroIface with
  | some hook =>
    match hook q with
    | (q1, some e) => ⟨q1, some e, [Event.beforeHook q]⟩
    | (q1, none) => ⟨q1, none, [Event.beforeHook q]⟩
  | none => ⟨q, none, []⟩

/-- `func (q *DropTableQuery) afterDropTableHook(ctx) error`, called with
`q.table` equal to the table `t` (not nil). -/
def afterDropTableHook (env : Env) (q : DropTableQuery) (t : Table) : Hooked :=
  match env.AfterDropTable t.ZeroIface with
  | some hook =>
    match hook q with
    | (q1, some e) => ⟨q1, some e, [Event.afterHook q]⟩
    | (q1, none) => ⟨q1, none, [Event.afterHook q]⟩
  | none => ⟨q, none, []⟩

/-- The first block of `Exec`: `if q.table != nil { q.beforeDropTableHook(ctx) }`. -/
def preHook (env : Env) (q : DropTableQuery) : Hooked :=
  match q.table with
  | some t => beforeDropTableHook env q t
  | none => ⟨q, none, []⟩

/-- The last block of `Exec`: `if q.table != nil { q.afterDropTableHook(ctx) }`. -/
def postHook (env : Env) (q : DropTableQuery) : Hooked :=
  match q.table with
  | some t => afterDropTableHook env q t
  | none => ⟨q, none, []⟩

/-- What `Exec` leaves behind: the Go return values `(res, err)`, the builder
after the call and the ordered record of what was done. -/
structure ExecResult where
  res : SqlResult
  err : Option Error
  q : DropTableQuery
  trace : List Event

/-- `func (q *DropTableQuery) Exec(ctx, dest...) (sql.Result, error)`. -/
def Exec (env : Env) (q : DropTableQuery) : ExecResult :=
  let pre := preHook env q
  match pre.err with
  | some e => ⟨SqlResult.nil, some e, pre.q, pre.trace⟩
  | none =>
    let r := AppendQuery env pre.q.db.fmter pre.q env.byteSlice
    let tr := pre.trace ++ [Event.render pre.q env.byteSlice]
    match r.err with
    | some e => ⟨SqlResult.nil, some e, r.q, tr⟩
    | none =>
      let query := r.b.getD []
      let out := env.exec r.q query
      let tr := tr ++ [Event.exec r.q query]
      match out.2 with
      | some e => ⟨out.1, some e, r.q, tr⟩
      | none =>
        let post := postHook env r.q
        match post.err with
        | some e => ⟨out.1, some e, post.q, tr ++ post.trace⟩
        | none => ⟨out.1, none, post.q, tr ++ post.trace⟩

/-- Render-then-execute with no hook at all: `AppendQuery` on the pooled buffer,
then `baseQuery.exec` on the text; the render error when rendering fails. -/
def renderThenExec (env : Env) (q : DropTableQuery) : SqlResult × Option Error :=
  let r := AppendQuery env q.db.fmter q env.byteSlice
  match r.err with
  | some e => (SqlResult.nil, some e)
  | none => env.exec q (r.b.getD [])

/-- Event classifier: a call that reaches the connection. -/
def Event.isExec : Event → Bool
  | Event.exec _ _ => true
  | _ => false

/-- Event classifier: an invocation of the before-drop-table hook. -/
def Event.isBeforeHook : Event → Bool
  | Event.beforeHook _ => true
  | _ => false

/-- Event classifier: an invocation of the after-drop-table hook. -/
def Event.isAfterHook : Event → Bool
  | Event.afterHook _ => true
  | _ => false

/-- Event classifier: a rendering of the statement. -/
def Event.isRender : Event → Bool
  | Event.render _ _ => true
  | _ => false

/-- Number of calls to the connection in a trace. -/
def execCount (tr : List Event) : Nat := tr.countP Event.isExec

/-- Number of before-hook invocations in a trace. -/
def beforeHookCount (tr : List Event) : Nat := tr.countP Event.isBeforeHook

/-- Number of after-hook invocations in a trace. -/
def afterHookCount (tr : List Event) : Nat := tr.countP Event.isAfterHook

/-- Number of renderings in a trace. -/
def renderCount (tr : List Event) : Nat := tr.countP Event.isRender

/-- Whether the model bound as `table` implements the before-drop-table hook
(false when no model is bound). -/
def implementsBefore (env : Env) (table : Option Table) : Bool :=
  match table with
  | some t => (env.BeforeDropTable t.ZeroIface).isSome
  | none => false

/-- Whether the model bound as `table` implements the after-drop-table hook
(false when no model is bound). -/
def implementsAfter (env : Env) (table : Option Table) : Bool :=
  match table with
  | some t => (env.AfterDropTable t.ZeroIface).isSome
  | none => false

/-! ## Sample collaborators used to exercise the theorems -/

/-- A table-list renderer that appends the single target `users`. -/
def sampleTables (_fmter : Formatter) (_q : DropTableQuery) (b : Bytes) :
    Bytes × Option Error :=
  (b ++ lit "users", none)

/-- A table-list renderer that fails. -/
def failingTables (_fmter : Formatter) (_q : DropTableQuery) (b : Bytes) :
    Bytes × Option Error :=
  (b, some "bun: no tables")

/-- A hook that succeeds and calls `q.IfExists()` on the builder it receives. -/
def hookIfExists : HookFn := fun q => (IfExists q, none)

/-- A hook that succeeds and leaves the builder alone. -/
def hookOk : HookFn := fun q => (q, none)

/-- A hook that fails with the given message. -/
def hookFail (msg : Error) : HookFn := fun q => (q, some msg)

/-- A sample environment: targets render as `users`, the cascade clause follows
`appendCascadeSpec`, the pooled buffer is empty, the connection answers with
`out`, and the model type `1` implements the given hooks (no other type does). -/
def sampleEnv (before after : Option HookFn) (out : SqlResult × Option Error) : Env where
  appendTables := sampleTables
  appendCascade := appendCascadeSpec
  byteSlice := []
  exec := fun _ _ => out
  BeforeDropTable := fun ty => if ty = 1 then before else none
  AfterDropTable := fun ty => if ty = 1 then after else none

/-- The sample environment with a failing table-list renderer. -/
def failingEnv (before after : Option HookFn) (out : SqlResult × Option Error) : Env :=
  { sampleEnv before after out with appendTables := failingTables }

/-- A fresh builder with the model of type `1` bound. -/
def sampleQuery : DropTableQuery where
  db := ⟨⟨"pg"⟩⟩
  dbi := 0
  err := none
  table := some ⟨1⟩
  tables := []
  restrict := false
  ifExists := false

/-- The sample builder carrying a sticky error. -/
def stickyQuery : DropTableQuery :=
  { sampleQuery with err := some "bun: Model(nil)" }

/-- A hook that succeeds and binds another model to the builder it receives, as
a call `q.Model(m)` inside the hook does; `t` is the table of the new model. -/
def hookRebind (t : Table) : HookFn := fun q => ({ q with table := some t }, none)

/-- A method table in which the model type `ty` alone implements the hook. -/
def onlyType (ty : Nat) (hook : HookFn) : Nat → Option HookFn :=
  fun n => if n = ty then some hook else none

/-- The sample environment with the hook method tables given per model type. -/
def typedEnv (before after : Nat → Option HookFn) (out : SqlResult × Option Error) : Env :=
  { sampleEnv none none out with BeforeDropTable := before, AfterDropTable := after }

/-! ## Unfolding lemmas -/

theorem AppendQuery_q (env : Env) (fmter : Formatter) (q : DropTableQuery) (b : Bytes) :
    (AppendQuery env fmter q b).q = q := by
  unfold AppendQuery
  split
  · rfl
  · dsimp only
    split <;> rfl

theorem AppendQuery_of_err (env : Env) (fmter : Formatter) (q : DropTableQuery) (b : Bytes)
    (e : Error) (h : q.err = some e) :
    AppendQuery env fmter q b = ⟨q, none, some e⟩ := by
  unfold AppendQuery
  rw [h]

theorem AppendQuery_of_tables (env : Env) (fmter : Formatter) (q : DropTableQuery)
    (b b2 : Bytes) (herr : q.err = none)
    (hT : env.appendTables fmter q
      (if q.ifExists then b ++ lit "DROP TABLE " ++ lit "IF EXISTS " else b ++ lit "DROP TABLE ")
      = (b2, none)) :
    AppendQuery env fmter q b = ⟨q, some (env.appendCascade fmter q b2), none⟩ := by
  unfold AppendQuery
  rw [herr]
  dsimp only
  rw [hT]

theorem preHook_trace (env : Env) (q : DropTableQuery) :
    (preHook env q).trace = [] ∨ (preHook env q).trace = [Event.beforeHook q] := by
  unfold preHook
  split
  · unfold beforeDropTableHook
    split
    · split <;> simp
    · simp
  · simp

theorem postHook_trace (env : Env) (q : DropTableQuery) :
    (postHook env q).trace = [] ∨ (postHook env q).trace = [Event.afterHook q] := by
  unfold postHook
  split
  · unfold afterDropTableHook
    split
    · split <;> simp
    · simp
  · simp

theorem Exec_of_pre_err (env : Env) (q : DropTableQuery) (e : Error)
    (h : (preHook env q).err = some e) :
    Exec env q = ⟨SqlResult.nil, some e, (preHook env q).q, (preHook env q).trace⟩ := by
  unfold Exec
  simp only [h]

theorem Exec_of_render_err (env : Env) (q : DropTableQuery) (e : Error)
    (hp : (preHook env q).err = none)
    (hr : (AppendQuery env (preHook env q).q.db.fmter (preHook env q).q env.byteSlice).err
      = some e) :
    Exec env q = ⟨SqlResult.nil, some e, (preHook env q).q,
      (preHook env q).trace ++ [Event.render (preHook env q).q env.byteSlice]⟩ := by
  unfold Exec
  simp only [hp, hr, AppendQuery_q]

theorem Exec_of_exec_err (env : Env) (q : DropTableQuery) (e : Error)
    (hp : (preHook env q).err = none)
    (hr : (AppendQuery env (preHook env q).q.db.fmter (preHook env q).q env.byteSlice).err
      = none)
    (hx : (env.exec (preHook env q).q
      ((AppendQuery env (preHook env q).q.db.fmter (preHook env q).q env.byteSlice).b.getD [])).2
      = some e) :
    Exec env q = ⟨(env.exec (preHook env q).q
        ((AppendQuery env (preHook env q).q.db.fmter (preHook env q).q
          env.byteSlice).b.getD [])).1,
      some e, (preHook env q).q,
      (preHook env q).trace ++ [Event.render (preHook env q).q env.byteSlice] ++
        [Event.exec (preHook env q).q
          ((AppendQuery env (preHook env q).q.db.fmter (preHook env q).q
            env.byteSlice).b.getD [])]⟩ := by
  unfold Exec
  simp only [hp, hr, hx, AppendQuery_q]

theorem Exec_of_exec_ok (env : Env) (q : DropTableQuery)
    (hp : (preHook env q).err = none)
    (hr : (AppendQuery env (preHook env q).q.db.fmter (preHook env q).q env.byteSlice).err
      = none)
    (hx : (env.exec (preHook env q).q
      ((AppendQuery env (preHook env q).q.db.fmter (preHook env q).q env.byteSlice).b.getD [])).2
      = none) :
    Exec env q = ⟨(env.exec (preHook env q).q
        ((AppendQuery env (preHook env q).q.db.fmter (preHook env q).q
          env.byteSlice).b.getD [])).1,
      (postHook env (preHook env q).q).err, (postHook env (preHook env q).q).q,
      (preHook env q).trace ++ [Event.render (preHook env q).q env.byteSlice] ++
        [Event.exec (preHook env q).q
          ((AppendQuery env (preHook env q).q.db.fmter (preHook env q).q
            env.byteSlice).b.getD [])] ++ (postHook env (preHook env q).q).trace⟩ := by
  unfold Exec
  simp only [hp, hr, hx, AppendQuery_q]
  split <;> simp_all

theorem lit_drop_if_exists :
    lit "DROP TABLE " ++ lit "IF EXISTS " = lit "DROP TABLE IF EXISTS " := by
  decide

/-! ## Rendering -/

/-- C1: on a builder with no sticky error, when the table-list renderer succeeds
and appends `T`, and the cascade renderer appends `C`, `AppendQuery` returns no
error and exactly `b ++ "DROP TABLE " ++ ["IF EXISTS "] ++ T ++ C`, the guard
being present exactly when `ifExists` is set; the input buffer is the leading
part of the result and the builder is left as it was. -/
theorem AppendQuery_clause_order (env : Env) (fmter : Formatter) (q : DropTableQuery)
    (b T C : Bytes) (herr : q.err = none)
    (hT : env.appendTables fmter q
        (b ++ lit "DROP TABLE " ++ (if q.ifExists then lit "IF EXISTS " else []))
      = (b ++ lit "DROP TABLE " ++ (if q.ifExists then lit "IF EXISTS " else []) ++ T, none))
    (hC : env.appendCascade fmter q
        (b ++ lit "DROP TABLE " ++ (if q.ifExists then lit "IF EXISTS " else []) ++ T)
      = b ++ lit "DROP TABLE " ++ (if q.ifExists then lit "IF EXISTS " else []) ++ T ++ C) :
    (AppendQuery env fmter q b).err = none ∧
    (AppendQuery env fmter q b).b
      = some (b ++ lit "DROP TABLE " ++ (if q.ifExists then lit "IF EXISTS " else [])
          ++ T ++ C) ∧
    (∀ out, (AppendQuery env fmter q b).b = some out → b <+: out) ∧
    (AppendQuery env fmter q b).q = q := by
  have hb : (if q.ifExists then b ++ lit "DROP TABLE " ++ lit "IF EXISTS "
      else b ++ lit "DROP TABLE ")
      = b ++ lit "DROP TABLE " ++ (if q.ifExists then lit "IF EXISTS " else []) := by
    split <;> simp
  have hA := AppendQuery_of_tables env fmter q b
    (b ++ lit "DROP TABLE " ++ (if q.ifExists then lit "IF EXISTS " else []) ++ T) herr
    (by rw [hb]; exact hT)
  rw [hA, hC]
  refine ⟨rfl, rfl, ?_, rfl⟩
  intro out hout
  simp only [Option.some.injEq] at hout
  subst hout
  exact ⟨lit "DROP TABLE " ++ (if q.ifExists then lit "IF EXISTS " else []) ++ T ++ C,
    by simp [List.append_assoc]⟩

theorem AppendQuery_clause_order_witness :
    (AppendQuery (sampleEnv none none (SqlResult.rows 0, none)) ⟨"pg"⟩
        (IfExists sampleQuery) (lit "EXPLAIN ")).b
      = some (lit "EXPLAIN DROP TABLE IF EXISTS users CASCADE") := by
  have h := (AppendQuery_clause_order (sampleEnv none none (SqlResult.rows 0, none)) ⟨"pg"⟩
    (IfExists sampleQuery) (lit "EXPLAIN ") (lit "users") (lit " CASCADE") rfl rfl rfl).2.1
  rw [h]
  decide

/-- C2: on a builder whose sticky error is set, `AppendQuery` returns that error
and the nil buffer, whatever the formatter, the input buffer and the other
fields are. -/
theorem AppendQuery_sticky_error (env : Env) (fmter : Formatter) (q : DropTableQuery)
    (b : Bytes) (e : Error) (herr : q.err = some e) :
    (AppendQuery env fmter q b).err = some e ∧ (AppendQuery env fmter q b).b = none := by
  rw [AppendQuery_of_err env fmter q b e herr]
  exact ⟨rfl, rfl⟩

theorem AppendQuery_sticky_error_witness :
    (AppendQuery (sampleEnv none none (SqlResult.rows 0, none)) ⟨"pg"⟩
        (IfExists stickyQuery) (lit "EXPLAIN ")).err = some "bun: Model(nil)" ∧
    (AppendQuery (sampleEnv none none (SqlResult.rows 0, none)) ⟨"pg"⟩
        (IfExists stickyQuery) (lit "EXPLAIN ")).b = none :=
  AppendQuery_sticky_error (sampleEnv none none (SqlResult.rows 0, none)) ⟨"pg"⟩
    (IfExists stickyQuery) (lit "EXPLAIN ") "bun: Model(nil)" rfl

/-- C7: `AppendQuery` leaves every field of the builder unchanged, and a second
call on the builder as the first call left it, with the same formatter and the
same input buffer, returns the same bytes and the same error. -/
theorem AppendQuery_idempotent (env : Env) (fmter : Formatter) (q : DropTableQuery)
    (b : Bytes) :
    (AppendQuery env fmter q b).q = q ∧
    (AppendQuery env fmter q b).q.err = q.err ∧
    (AppendQuery env fmter q b).q.ifExists = q.ifExists ∧
    (AppendQuery env fmter q b).q.restrict = q.restrict ∧
    (AppendQuery env fmter q b).q.table = q.table ∧
    (AppendQuery env fmter q b).q.tables = q.tables ∧
    (AppendQuery env fmter (AppendQuery env fmter q b).q b).b
      = (AppendQuery env fmter q b).b ∧
    (AppendQuery env fmter (AppendQuery env fmter q b).q b).err
      = (AppendQuery env fmter q b).err ∧
    (AppendQuery env fmter (AppendQuery env fmter q b).q b).q = q := by
  have h := AppendQuery_q env fmter q b
  simp only [h, and_self]

/-- C8: on a builder with no sticky error and cascade in effect (`Restrict` not
called), after `IfExists()` rendering into an empty buffer gives exactly
`DROP TABLE IF EXISTS ` followed by the rendered targets `T` followed by
` CASCADE`, the cascade renderer being the one modelled from the spec. -/
theorem AppendQuery_if_exists_cascade (env : Env) (fmter : Formatter) (q : DropTableQuery)
    (T : Bytes) (hcas : env.appendCascade = appendCascadeSpec)
    (herr : q.err = none) (hres : q.restrict = false)
    (hT : env.appendTables fmter (IfExists q) (lit "DROP TABLE IF EXISTS ")
      = (lit "DROP TABLE IF EXISTS " ++ T, none)) :
    (AppendQuery env fmter (IfExists q) []).err = none ∧
    (AppendQuery env fmter (IfExists q) []).b
      = some (lit "DROP TABLE IF EXISTS " ++ T ++ lit " CASCADE") := by
  have hq : (IfExists q).err = none := herr
  have hA := AppendQuery_of_tables env fmter (IfExists q) [] (lit "DROP TABLE IF EXISTS " ++ T)
    hq (by
      have hi : (IfExists q).ifExists = true := rfl
      rw [hi]
      simp only [if_true, List.nil_append]
      rw [lit_drop_if_exists]
      exact hT)
  have hr : (IfExists q).restrict = false := hres
  rw [hA, hcas]
  simp [appendCascadeSpec, hr]

theorem AppendQuery_if_exists_cascade_witness :
    (AppendQuery (sampleEnv none none (SqlResult.rows 0, none)) ⟨"pg"⟩
        (IfExists sampleQuery) []).b
      = some (lit "DROP TABLE IF EXISTS " ++ lit "users" ++ lit " CASCADE") :=
  (AppendQuery_if_exists_cascade (sampleEnv none none (SqlResult.rows 0, none)) ⟨"pg"⟩
    sampleQuery (lit "users") rfl rfl rfl rfl).2

/-! ## Hook helpers and trace counts -/

theorem preHook_of_hook (env : Env) (q : DropTableQuery) (t : Table) (h : HookFn)
    (ht : q.table = some t) (hh : env.BeforeDropTable t.ZeroIface = some h) :
    preHook env q = ⟨(h q).1, (h q).2, [Event.beforeHook q]⟩ := by
  unfold preHook
  rw [ht]
  dsimp only
  unfold beforeDropTableHook
  rw [hh]
  dsimp only
  split <;> simp_all

theorem preHook_of_no_hook (env : Env) (q : DropTableQuery)
    (h : implementsBefore env q.table = false) :
    preHook env q = ⟨q, none, []⟩ := by
  unfold preHook
  unfold implementsBefore at h
  split
  · rename_i t ht
    rw [ht] at h
    unfold beforeDropTableHook
    cases hb : env.BeforeDropTable t.ZeroIface with
    | none => rfl
    | some hook => simp [hb] at h
  · rfl

theorem postHook_of_hook (env : Env) (q : DropTableQuery) (t : Table) (h : HookFn)
    (ht : q.table = some t) (hh : env.AfterDropTable t.ZeroIface = some h) :
    postHook env q = ⟨(h q).1, (h q).2, [Event.afterHook q]⟩ := by
  unfold postHook
  rw [ht]
  dsimp only
  unfold afterDropTableHook
  rw [hh]
  dsimp only
  split <;> simp_all

theorem postHook_of_no_hook (env : Env) (q : DropTableQuery)
    (h : implementsAfter env q.table = false) :
    postHook env q = ⟨q, none, []⟩ := by
  unfold postHook
  unfold implementsAfter at h
  split
  · rename_i t ht
    rw [ht] at h
    unfold afterDropTableHook
    cases hb : env.AfterDropTable t.ZeroIface with
    | none => rfl
    | some hook => simp [hb] at h
  · rfl

theorem preHook_trace_of_implements (env : Env) (q : DropTableQuery)
    (h : implementsBefore env q.table = true) :
    (preHook env q).trace = [Event.beforeHook q] := by
  unfold implementsBefore at h
  cases ht : q.table with
  | none => simp [ht] at h
  | some t =>
    rw [ht] at h
    cases hb : env.BeforeDropTable t.ZeroIface with
    | none => simp [hb] at h
    | some hook => rw [preHook_of_hook env q t hook ht hb]

theorem postHook_trace_of_implements (env : Env) (q : DropTableQuery)
    (h : implementsAfter env q.table = true) :
    (postHook env q).trace = [Event.afterHook q] := by
  unfold implementsAfter at h
  cases ht : q.table with
  | none => simp [ht] at h
  | some t =>
    rw [ht] at h
    cases hb : env.AfterDropTable t.ZeroIface with
    | none => simp [hb] at h
    | some hook => rw [postHook_of_hook env q t hook ht hb]

theorem preHook_counts (env : Env) (q : DropTableQuery) :
    execCount (preHook env q).trace = 0 ∧ afterHookCount (preHook env q).trace = 0 ∧
    renderCount (preHook env q).trace = 0 := by
  rcases preHook_trace env q with h | h <;> rw [h] <;> exact ⟨rfl, rfl, rfl⟩

theorem postHook_counts (env : Env) (q : DropTableQuery) :
    execCount (postHook env q).trace = 0 ∧ beforeHookCount (postHook env q).trace = 0 ∧
    renderCount (postHook env q).trace = 0 := by
  rcases postHook_trace env q with h | h <;> rw [h] <;> exact ⟨rfl, rfl, rfl⟩

theorem execCount_append (a b : List Event) :
    execCount (a ++ b) = execCount a + execCount b := by
  simp [execCount]

theorem beforeHookCount_append (a b : List Event) :
    beforeHookCount (a ++ b) = beforeHookCount a + beforeHookCount b := by
  simp [beforeHookCount]

theorem afterHookCount_append (a b : List Event) :
    afterHookCount (a ++ b) = afterHookCount a + afterHookCount b := by
  simp [afterHookCount]

theorem renderCount_append (a b : List Event) :
    renderCount (a ++ b) = renderCount a + renderCount b := by
  simp [renderCount]

/-- The four ways `Exec` can end, with the trace of each. -/
theorem Exec_trace_cases (env : Env) (q : DropTableQuery) :
    (∃ e, (preHook env q).err = some e ∧ (Exec env q).err = some e ∧
      (Exec env q).trace = (preHook env q).trace) ∨
    (∃ e, (preHook env q).err = none ∧ (Exec env q).err = some e ∧
      (Exec env q).trace
        = (preHook env q).trace ++ [Event.render (preHook env q).q env.byteSlice]) ∨
    (∃ e, (preHook env q).err = none ∧ (Exec env q).err = some e ∧
      (Exec env q).trace
        = (preHook env q).trace ++ [Event.render (preHook env q).q env.byteSlice] ++
          [Event.exec (preHook env q).q
            ((AppendQuery env (preHook env q).q.db.fmter (preHook env q).q
              env.byteSlice).b.getD [])]) ∨
    ((preHook env q).err = none ∧
      (Exec env q).err = (postHook env (preHook env q).q).err ∧
      (Exec env q).trace
        = (preHook env q).trace ++ [Event.render (preHook env q).q env.byteSlice] ++
          [Event.exec (preHook env q).q
            ((AppendQuery env (preHook env q).q.db.fmter (preHook env q).q
              env.byteSlice).b.getD [])] ++ (postHook env (preHook env q).q).trace) := by
  cases hp : (preHook env q).err with
  | some e =>
    left
    exact ⟨e, rfl, by rw [Exec_of_pre_err env q e hp], by rw [Exec_of_pre_err env q e hp]⟩
  | none =>
    right
    cases hr : (AppendQuery env (preHook env q).q.db.fmter (preHook env q).q
        env.byteSlice).err with
    | some e =>
      left
      exact ⟨e, rfl, by rw [Exec_of_render_err env q e hp hr],
        by rw [Exec_of_render_err env q e hp hr]⟩
    | none =>
      right
      cases hx : (env.exec (preHook env q).q
          ((AppendQuery env (preHook env q).q.db.fmter (preHook env q).q
            env.byteSlice).b.getD [])).2 with
      | some e =>
        left
        exact ⟨e, rfl, by rw [Exec_of_exec_err env q e hp hr hx],
          by rw [Exec_of_exec_err env q e hp hr hx]⟩
      | none =>
        right
        exact ⟨rfl, by rw [Exec_of_exec_ok env q hp hr hx],
          by rw [Exec_of_exec_ok env q hp hr hx]⟩

theorem Exec_beforeHookCount (env : Env) (q : DropTableQuery) :
    beforeHookCount (Exec env q).trace = beforeHookCount (preHook env q).trace := by
  have hpost := (postHook_counts env (preHook env q).q).2.1
  rcases Exec_trace_cases env q with ⟨e, _, _, h⟩ | ⟨e, _, _, h⟩ | ⟨e, _, _, h⟩ | ⟨_, _, h⟩ <;>
    rw [h] <;> simp only [beforeHookCount_append, hpost] <;> rfl

theorem Exec_afterHookCount_le (env : Env) (q : DropTableQuery) :
    afterHookCount (Exec env q).trace
      ≤ afterHookCount (postHook env (preHook env q).q).trace := by
  have hpre := (preHook_counts env q).2.1
  rcases Exec_trace_cases env q with ⟨e, _, _, h⟩ | ⟨e, _, _, h⟩ | ⟨e, _, _, h⟩ | ⟨_, _, h⟩ <;>
    rw [h] <;> simp only [afterHookCount_append, hpre] <;>
    simp [afterHookCount, Event.isAfterHook]

theorem Exec_execCount_le (env : Env) (q : DropTableQuery) :
    execCount (Exec env q).trace ≤ 1 := by
  have hpre := (preHook_counts env q).1
  have hpost := (postHook_counts env (preHook env q).q).1
  rcases Exec_trace_cases env q with ⟨e, _, _, h⟩ | ⟨e, _, _, h⟩ | ⟨e, _, _, h⟩ | ⟨_, _, h⟩ <;>
    rw [h] <;> simp only [execCount_append, hpre, hpost] <;>
    simp [execCount, Event.isExec]

/-! ## Execution -/

/-- C3 (as stated) fails: with a sticky error on the builder and a bound model
whose before-drop-table hook fails, `Exec` invokes the hook and returns the
hook's error, which is not the sticky error. -/
theorem Exec_sticky_hook_error_differs :
    stickyQuery.err = some "bun: Model(nil)" ∧
    implementsBefore (sampleEnv (some (hookFail "before: denied")) none
      (SqlResult.rows 0, none)) stickyQuery.table = true ∧
    (Exec (sampleEnv (some (hookFail "before: denied")) none (SqlResult.rows 0, none))
      stickyQuery).err = some "before: denied" ∧
    (Exec (sampleEnv (some (hookFail "before: denied")) none (SqlResult.rows 0, none))
      stickyQuery).err ≠ stickyQuery.err ∧
    (Exec (sampleEnv (some (hookFail "before: denied")) none (SqlResult.rows 0, none))
      stickyQuery).trace = [Event.beforeHook stickyQuery] := by
  decide

/-- C3 (amended): on a builder whose sticky error is set, and is still set once
the before-drop-table block is over, `Exec` sends nothing to the connection and
runs no after-hook; when no before-hook applies or the before-hook returns no
error, `Exec` returns the sticky error itself with a nil result. -/
theorem Exec_sticky_error (env : Env) (q : DropTableQuery) (e : Error)
    (herr : q.err = some e) (hkeep : (preHook env q).q.err = q.err) :
    execCount (Exec env q).trace = 0 ∧
    afterHookCount (Exec env q).trace = 0 ∧
    ((preHook env q).err = none →
      (Exec env q).err = some e ∧ (Exec env q).res = SqlResult.nil) := by
  have hpre := preHook_counts env q
  cases hp : (preHook env q).err with
  | some e1 =>
    rw [Exec_of_pre_err env q e1 hp]
    exact ⟨hpre.1, hpre.2.1, fun h => by simp at h⟩
  | none =>
    have hr : (AppendQuery env (preHook env q).q.db.fmter (preHook env q).q
        env.byteSlice).err = some e := by
      rw [AppendQuery_of_err env _ _ _ e (hkeep.trans herr)]
    rw [Exec_of_render_err env q e hp hr]
    refine ⟨?_, ?_, fun _ => ⟨rfl, rfl⟩⟩
    · rw [execCount_append, hpre.1]; rfl
    · rw [afterHookCount_append, hpre.2.1]; rfl

theorem Exec_sticky_error_witness :
    execCount (Exec (sampleEnv (some hookIfExists) (some hookOk) (SqlResult.rows 0, none))
      stickyQuery).trace = 0 ∧
    (Exec (sampleEnv (some hookIfExists) (some hookOk) (SqlResult.rows 0, none))
      stickyQuery).err = some "bun: Model(nil)" := by
  have h := Exec_sticky_error (sampleEnv (some hookIfExists) (some hookOk)
    (SqlResult.rows 0, none)) stickyQuery "bun: Model(nil)" rfl rfl
  exact ⟨h.1, (h.2.2 rfl).1⟩

/-- C4: when the bound model's type implements the before-drop-table hook and
that hook returns the error `e`, `Exec` returns `e` (with a nil result), the
connection is called zero times, the after-hook is invoked zero times and
nothing is rendered: the before-hook invocation is all that happened. -/
theorem Exec_before_hook_error (env : Env) (q : DropTableQuery) (t : Table)
    (hook : HookFn) (e : Error)
    (ht : q.table = some t) (hh : env.BeforeDropTable t.ZeroIface = some hook)
    (he : (hook q).2 = some e) :
    (Exec env q).err = some e ∧
    (Exec env q).res = SqlResult.nil ∧
    execCount (Exec env q).trace = 0 ∧
    afterHookCount (Exec env q).trace = 0 ∧
    (Exec env q).trace = [Event.beforeHook q] := by
  have hpre := preHook_of_hook env q t hook ht hh
  have hp : (preHook env q).err = some e := by rw [hpre]; exact he
  rw [Exec_of_pre_err env q e hp, hpre]
  exact ⟨rfl, rfl, rfl, rfl, rfl⟩

theorem Exec_before_hook_error_witness :
    (Exec (sampleEnv (some (hookFail "before: denied")) (some hookOk)
      (SqlResult.rows 0, none)) sampleQuery).err = some "before: denied" ∧
    execCount (Exec (sampleEnv (some (hookFail "before: denied")) (some hookOk)
      (SqlResult.rows 0, none)) sampleQuery).trace = 0 ∧
    afterHookCount (Exec (sampleEnv (some (hookFail "before: denied")) (some hookOk)
      (SqlResult.rows 0, none)) sampleQuery).trace = 0 := by
  have h := Exec_before_hook_error (sampleEnv (some (hookFail "before: denied"))
    (some hookOk) (SqlResult.rows 0, none)) sampleQuery ⟨1⟩ (hookFail "before: denied")
    "before: denied" rfl rfl rfl
  exact ⟨h.1, h.2.2.1, h.2.2.2.1⟩

/-- C5: once the before-drop-table block is over without error, if rendering
fails with `e`, or rendering succeeds and the connection returns the error `e`,
then `Exec` returns `e` and the after-hook is invoked zero times. -/
theorem Exec_failure_skips_after_hook (env : Env) (q : DropTableQuery) (e : Error)
    (hp : (preHook env q).err = none)
    (hfail :
      (AppendQuery env (preHook env q).q.db.fmter (preHook env q).q env.byteSlice).err
        = some e ∨
      ((AppendQuery env (preHook env q).q.db.fmter (preHook env q).q env.byteSlice).err
        = none ∧
       (env.exec (preHook env q).q
        ((AppendQuery env (preHook env q).q.db.fmter (preHook env q).q
          env.byteSlice).b.getD [])).2 = some e)) :
    (Exec env q).err = some e ∧ afterHookCount (Exec env q).trace = 0 := by
  have hpre := (preHook_counts env q).2.1
  rcases hfail with hr | ⟨hr, hx⟩
  · rw [Exec_of_render_err env q e hp hr]
    refine ⟨rfl, ?_⟩
    rw [afterHookCount_append, hpre]; rfl
  · rw [Exec_of_exec_err env q e hp hr hx]
    refine ⟨rfl, ?_⟩
    rw [afterHookCount_append, afterHookCount_append, hpre]; rfl

theorem Exec_failure_skips_after_hook_witness :
    ((Exec (failingEnv (some hookOk) (some hookOk) (SqlResult.rows 0, none))
        sampleQuery).err = some "bun: no tables" ∧
      afterHookCount (Exec (failingEnv (some hookOk) (some hookOk)
        (SqlResult.rows 0, none)) sampleQuery).trace = 0) ∧
    ((Exec (sampleEnv (some hookOk) (some hookOk) (SqlResult.nil, some "conn: refused"))
        sampleQuery).err = some "conn: refused" ∧
      afterHookCount (Exec (sampleEnv (some hookOk) (some hookOk)
        (SqlResult.nil, some "conn: refused")) sampleQuery).trace = 0) :=
  ⟨Exec_failure_skips_after_hook (failingEnv (some hookOk) (some hookOk)
      (SqlResult.rows 0, none)) sampleQuery "bun: no tables" rfl (Or.inl rfl),
   Exec_failure_skips_after_hook (sampleEnv (some hookOk) (some hookOk)
      (SqlResult.nil, some "conn: refused")) sampleQuery "conn: refused" rfl
      (Or.inr ⟨rfl, rfl⟩)⟩

/-- C6: when the before-drop-table block and rendering succeed, the connection
returns the result `r` without error, and the after-drop-table hook of the bound
model returns the error `e`, then `Exec` returns `e` together with `r`; the
connection was called exactly once, and that call is followed only by the
after-hook invocation. -/
theorem Exec_after_hook_error (env : Env) (q : DropTableQuery) (t : Table)
    (hook : HookFn) (r : SqlResult) (e : Error)
    (hp : (preHook env q).err = none)
    (hr : (AppendQuery env (preHook env q).q.db.fmter (preHook env q).q env.byteSlice).err
      = none)
    (hx : env.exec (preHook env q).q
        ((AppendQuery env (preHook env q).q.db.fmter (preHook env q).q
          env.byteSlice).b.getD []) = (r, none))
    (ht : (preHook env q).q.table = some t)
    (hh : env.AfterDropTable t.ZeroIface = some hook)
    (he : (hook (preHook env q).q).2 = some e) :
    (Exec env q).err = some e ∧
    (Exec env q).res = r ∧
    execCount (Exec env q).trace = 1 ∧
    (Exec env q).trace
      = (preHook env q).trace ++ [Event.render (preHook env q).q env.byteSlice] ++
        [Event.exec (preHook env q).q
          ((AppendQuery env (preHook env q).q.db.fmter (preHook env q).q
            env.byteSlice).b.getD [])] ++ [Event.afterHook (preHook env q).q] := by
  have hx2 : (env.exec (preHook env q).q
      ((AppendQuery env (preHook env q).q.db.fmter (preHook env q).q
        env.byteSlice).b.getD [])).2 = none := by rw [hx]
  have hpost := postHook_of_hook env (preHook env q).q t hook ht hh
  have hpre := (preHook_counts env q).1
  rw [Exec_of_exec_ok env q hp hr hx2, hpost, hx]
  refine ⟨he, rfl, ?_, rfl⟩
  simp only [execCount_append, hpre]
  rfl

theorem Exec_after_hook_error_witness :
    (Exec (sampleEnv (some hookOk) (some (hookFail "after: failed"))
      (SqlResult.rows 3, none)) sampleQuery).err = some "after: failed" ∧
    (Exec (sampleEnv (some hookOk) (some (hookFail "after: failed"))
      (SqlResult.rows 3, none)) sampleQuery).res = SqlResult.rows 3 ∧
    execCount (Exec (sampleEnv (some hookOk) (some (hookFail "after: failed"))
      (SqlResult.rows 3, none)) sampleQuery).trace = 1 := by
  have h := Exec_after_hook_error (sampleEnv (some hookOk) (some (hookFail "after: failed"))
    (SqlResult.rows 3, none)) sampleQuery ⟨1⟩ (hookFail "after: failed") (SqlResult.rows 3)
    "after: failed" rfl rfl rfl rfl rfl rfl
  exact ⟨h.1, h.2.1, h.2.2.1⟩

theorem AppendQuery_b_of_ok (env : Env) (fmter : Formatter) (q : DropTableQuery) (b : Bytes)
    (h : (AppendQuery env fmter q b).err = none) :
    ∃ out, (AppendQuery env fmter q b).b = some out := by
  unfold AppendQuery at h ⊢
  split at h
  · simp at h
  · dsimp only at h ⊢
    split at h
    · simp at h
    · exact ⟨_, rfl⟩

/-- C9 (as stated) fails: the bound model's type `1` implements only the
before-hook, yet a successful `Exec` also invokes an after-hook.  The
before-hook binds a model of type `2` to the builder, `Exec` reads `q.table`
again before the after-hook block, and type `2` implements the after-hook. -/
theorem Exec_rebound_model_after_hook :
    sampleQuery.table = some ⟨1⟩ ∧
    implementsBefore (typedEnv (onlyType 1 (hookRebind ⟨2⟩)) (onlyType 2 hookOk)
      (SqlResult.rows 0, none)) sampleQuery.table = true ∧
    implementsAfter (typedEnv (onlyType 1 (hookRebind ⟨2⟩)) (onlyType 2 hookOk)
      (SqlResult.rows 0, none)) sampleQuery.table = false ∧
    (Exec (typedEnv (onlyType 1 (hookRebind ⟨2⟩)) (onlyType 2 hookOk)
      (SqlResult.rows 0, none)) sampleQuery).err = none ∧
    beforeHookCount (Exec (typedEnv (onlyType 1 (hookRebind ⟨2⟩)) (onlyType 2 hookOk)
      (SqlResult.rows 0, none)) sampleQuery).trace = 1 ∧
    afterHookCount (Exec (typedEnv (onlyType 1 (hookRebind ⟨2⟩)) (onlyType 2 hookOk)
      (SqlResult.rows 0, none)) sampleQuery).trace = 1 := by
  decide

/-- C9 (amended): hooks are optional and independent.  With no model bound, or a
bound model whose type implements neither hook, `Exec` invokes no hook, leaves
the builder alone and its result and error are those of plain
render-then-execute.  The before-hook is invoked exactly once when the type of
the model bound at the call implements it and never otherwise.  The after-hook
is decided on the model bound once the before-hook block is over: it is never
invoked when that model's type does not implement it, and exactly once when it
does and `Exec` returns no error.  So when the before-hook block leaves the
bound model in place, a type that implements only one of the two hooks has only
that one invoked. -/
theorem Exec_hooks_optional (env : Env) (q : DropTableQuery) :
    (q.table = none →
      implementsBefore env q.table = false ∧ implementsAfter env q.table = false) ∧
    (implementsBefore env q.table = false → implementsAfter env q.table = false →
      ((Exec env q).res, (Exec env q).err) = renderThenExec env q ∧
      (Exec env q).q = q ∧
      beforeHookCount (Exec env q).trace = 0 ∧ afterHookCount (Exec env q).trace = 0) ∧
    (implementsBefore env q.table = false → beforeHookCount (Exec env q).trace = 0) ∧
    (implementsBefore env q.table = true → beforeHookCount (Exec env q).trace = 1) ∧
    (implementsAfter env (preHook env q).q.table = false →
      afterHookCount (Exec env q).trace = 0) ∧
    (implementsAfter env (preHook env q).q.table = true → (Exec env q).err = none →
      afterHookCount (Exec env q).trace = 1) ∧
    ((preHook env q).q.table = q.table → implementsAfter env q.table = false →
      afterHookCount (Exec env q).trace = 0) ∧
    ((preHook env q).q.table = q.table → implementsAfter env q.table = true →
      (Exec env q).err = none → afterHookCount (Exec env q).trace = 1) := by
  have hB0 : implementsBefore env q.table = false →
      beforeHookCount (Exec env q).trace = 0 := by
    intro hb
    rw [Exec_beforeHookCount, preHook_of_no_hook env q hb]
    rfl
  have hA0 : implementsAfter env (preHook env q).q.table = false →
      afterHookCount (Exec env q).trace = 0 := by
    intro ha
    have hle := Exec_afterHookCount_le env q
    rw [postHook_of_no_hook env (preHook env q).q ha] at hle
    exact Nat.le_zero.mp hle
  have hA1 : implementsAfter env (preHook env q).q.table = true →
      (Exec env q).err = none → afterHookCount (Exec env q).trace = 1 := by
    intro ha hok
    have hpre := (preHook_counts env q).2.1
    have hpost := postHook_trace_of_implements env (preHook env q).q ha
    rcases Exec_trace_cases env q with ⟨e, _, he, _⟩ | ⟨e, _, he, _⟩ | ⟨e, _, he, _⟩ | ⟨_, _, h⟩
    · rw [hok] at he; simp at he
    · rw [hok] at he; simp at he
    · rw [hok] at he; simp at he
    · rw [h, hpost]
      simp only [afterHookCount_append, hpre]
      rfl
  refine ⟨?_, ?_, hB0, ?_, hA0, hA1, ?_, ?_⟩
  · intro hn
    rw [hn]
    exact ⟨rfl, rfl⟩
  · intro hb ha
    have hpre := preHook_of_no_hook env q hb
    have hpost := postHook_of_no_hook env q ha
    refine ⟨?_, ?_, hB0 hb, hA0 (by rw [hpre]; exact ha)⟩
    · unfold Exec renderThenExec
      rw [hpre]
      simp only [AppendQuery_q, hpost]
      split <;> simp_all
      split <;> simp_all
      all_goals (rename_i hx; exact Prod.ext rfl hx.symm)
    · unfold Exec
      rw [hpre]
      simp only [AppendQuery_q, hpost]
      split <;> simp_all
      split <;> simp_all
  · intro hb
    rw [Exec_beforeHookCount, preHook_trace_of_implements env q hb]
    rfl
  · intro hst ha
    exact hA0 (by rw [hst]; exact ha)
  · intro hst ha hok
    exact hA1 (by rw [hst]; exact ha) hok

theorem Exec_hooks_optional_witness :
    beforeHookCount (Exec (sampleEnv (some hookIfExists) none (SqlResult.rows 2, none))
      sampleQuery).trace = 1 ∧
    afterHookCount (Exec (sampleEnv (some hookIfExists) none (SqlResult.rows 2, none))
      sampleQuery).trace = 0 ∧
    ((Exec (sampleEnv none none (SqlResult.rows 2, none)) sampleQuery).res,
      (Exec (sampleEnv none none (SqlResult.rows 2, none)) sampleQuery).err)
      = renderThenExec (sampleEnv none none (SqlResult.rows 2, none)) sampleQuery ∧
    afterHookCount (Exec (typedEnv (onlyType 1 (hookRebind ⟨2⟩)) (onlyType 2 hookOk)
      (SqlResult.rows 2, none)) sampleQuery).trace = 1 :=
  ⟨(Exec_hooks_optional (sampleEnv (some hookIfExists) none (SqlResult.rows 2, none))
      sampleQuery).2.2.2.1 rfl,
   (Exec_hooks_optional (sampleEnv (some hookIfExists) none (SqlResult.rows 2, none))
      sampleQuery).2.2.2.2.2.2.1 rfl rfl,
   ((Exec_hooks_optional (sampleEnv none none (SqlResult.rows 2, none))
      sampleQuery).2.1 rfl rfl).1,
   (Exec_hooks_optional (typedEnv (onlyType 1 (hookRebind ⟨2⟩)) (onlyType 2 hookOk)
      (SqlResult.rows 2, none)) sampleQuery).2.2.2.2.2.1 rfl rfl⟩

/-- C10 (as stated) fails: with both hooks implemented and a before-hook that
calls `q.IfExists()`, a successful `Exec` invokes the before-hook first and
renders afterwards, and the text sent to the connection is the rendering of the
builder as the hook left it, not of the builder as it was when `Exec` was
called.  Moreover, with both hooks implemented by the bound type `1` and a
before-hook that binds a model of a type without hooks, a successful `Exec`
runs no after-hook at all: the after-hook is looked up on the model bound once
the before-hook has returned. -/
theorem Exec_renders_after_before_hook :
    implementsBefore (sampleEnv (some hookIfExists) (some hookOk) (SqlResult.rows 0, none))
      sampleQuery.table = true ∧
    implementsAfter (sampleEnv (some hookIfExists) (some hookOk) (SqlResult.rows 0, none))
      sampleQuery.table = true ∧
    (Exec (sampleEnv (some hookIfExists) (some hookOk) (SqlResult.rows 0, none))
      sampleQuery).err = none ∧
    (Exec (sampleEnv (some hookIfExists) (some hookOk) (SqlResult.rows 0, none))
      sampleQuery).trace
      = [Event.beforeHook sampleQuery,
         Event.render (IfExists sampleQuery) [],
         Event.exec (IfExists sampleQuery) (lit "DROP TABLE IF EXISTS users CASCADE"),
         Event.afterHook (IfExists sampleQuery)] ∧
    (AppendQuery (sampleEnv (some hookIfExists) (some hookOk) (SqlResult.rows 0, none))
      sampleQuery.db.fmter sampleQuery []).b = some (lit "DROP TABLE users CASCADE") ∧
    lit "DROP TABLE IF EXISTS users CASCADE" ≠ lit "DROP TABLE users CASCADE" ∧
    implementsBefore (typedEnv (onlyType 1 (hookRebind ⟨3⟩)) (onlyType 1 hookOk)
      (SqlResult.rows 0, none)) sampleQuery.table = true ∧
    implementsAfter (typedEnv (onlyType 1 (hookRebind ⟨3⟩)) (onlyType 1 hookOk)
      (SqlResult.rows 0, none)) sampleQuery.table = true ∧
    (Exec (typedEnv (onlyType 1 (hookRebind ⟨3⟩)) (onlyType 1 hookOk)
      (SqlResult.rows 0, none)) sampleQuery).err = none ∧
    afterHookCount (Exec (typedEnv (onlyType 1 (hookRebind ⟨3⟩)) (onlyType 1 hookOk)
      (SqlResult.rows 0, none)) sampleQuery).trace = 0 := by
  decide

/-- C10 (amended): when `Exec` succeeds on a builder whose bound model's type
implements the before-hook, and the type of the model bound once that hook has
returned (the same model unless the hook rebinds it) implements the after-hook,
the steps happen exactly once each in the order: before-hook, rendering,
connection call, after-hook; the text sent to the connection is the rendering of
the builder as the before-hook left it. -/
theorem Exec_success_order (env : Env) (q : DropTableQuery) (t t2 : Table)
    (hb ha : HookFn)
    (ht : q.table = some t) (hhb : env.BeforeDropTable t.ZeroIface = some hb)
    (ht2 : (hb q).1.table = some t2) (hha : env.AfterDropTable t2.ZeroIface = some ha)
    (hok : (Exec env q).err = none) :
    ∃ text, (AppendQuery env (hb q).1.db.fmter (hb q).1 env.byteSlice).b = some text ∧
      (AppendQuery env (hb q).1.db.fmter (hb q).1 env.byteSlice).err = none ∧
      (Exec env q).trace
        = [Event.beforeHook q, Event.render (hb q).1 env.byteSlice,
           Event.exec (hb q).1 text, Event.afterHook (hb q).1] := by
  have hpre := preHook_of_hook env q t hb ht hhb
  have hq1 : (preHook env q).q = (hb q).1 := by rw [hpre]
  have hpost := postHook_of_hook env (hb q).1 t2 ha ht2 hha
  cases hr : (AppendQuery env (hb q).1.db.fmter (hb q).1 env.byteSlice).err with
  | some e =>
    rcases Exec_trace_cases env q with ⟨e1, _, he, _⟩ | ⟨e1, _, he, _⟩ | ⟨e1, _, he, _⟩ |
      ⟨hp, _, _⟩
    · rw [hok] at he; simp at he
    · rw [hok] at he; simp at he
    · rw [hok] at he; simp at he
    · rw [Exec_of_render_err env q e hp (by rw [hq1]; exact hr)] at hok
      simp at hok
  | none =>
    obtain ⟨text, htext⟩ := AppendQuery_b_of_ok env _ _ _ hr
    refine ⟨text, htext, rfl, ?_⟩
    rcases Exec_trace_cases env q with ⟨e1, _, he, _⟩ | ⟨e1, _, he, _⟩ | ⟨e1, _, he, _⟩ |
      ⟨_, _, h⟩
    · rw [hok] at he; simp at he
    · rw [hok] at he; simp at he
    · rw [hok] at he; simp at he
    · rw [h, hq1, hpost, htext, hpre]
      rfl

theorem Exec_success_order_witness :
    ∃ text, (AppendQuery (sampleEnv (some hookIfExists) (some hookOk)
        (SqlResult.rows 0, none)) (hookIfExists sampleQuery).1.db.fmter
        (hookIfExists sampleQuery).1 [] ).b = some text ∧
      (AppendQuery (sampleEnv (some hookIfExists) (some hookOk)
        (SqlResult.rows 0, none)) (hookIfExists sampleQuery).1.db.fmter
        (hookIfExists sampleQuery).1 []).err = none ∧
      (Exec (sampleEnv (some hookIfExists) (some hookOk) (SqlResult.rows 0, none))
        sampleQuery).trace
        = [Event.beforeHook sampleQuery, Event.render (hookIfExists sampleQuery).1 [],
           Event.exec (hookIfExists sampleQuery).1 text,
           Event.afterHook (hookIfExists sampleQuery).1] :=
  Exec_success_order (sampleEnv (some hookIfExists) (some hookOk) (SqlResult.rows 0, none))
    sampleQuery ⟨1⟩ ⟨1⟩ hookIfExists hookOk rfl rfl rfl rfl rfl

end Bun
